import Mathlib

set_option maxHeartbeats 1000000

/-!
Verification of the agent-to-agent system's core: the event bus
(`backend/messageQueue.js`, classes `InMemoryEventBus` and
`RabbitMQEventBus`), the orchestrator (`backend/orchestrator.js`,
`OrchestratorAgent.orchestrateAsync`), and the agent execution contract
(`backend/agent.js`, `Agent.execute`).  External collaborators
(Completion Service, Tool Runner, JSON parser, uuid generator, clock,
broker) are modelled as oracle parameters; everything else is a direct
translation of the JavaScript source.
-/

/-- An enriched event as produced by `publish`: `id`, `timestamp`, `type`.
The open set of type-specific payload fields does not enter any claim
about the bus and is omitted. -/
structure Event where
  id : String
  timestamp : String
  type : String
deriving DecidableEq, Repr

/-- The argument of `publish`.  In JavaScript any object can be passed,
so the input may or may not itself carry `id` / `timestamp` fields. -/
structure PartialEvent where
  id? : Option String
  timestamp? : Option String
  type : String
deriving DecidableEq, Repr

/-- Enrichment from `publish` (both backends):
`const enrichedEvent = { id: uuidv4(), timestamp: new Date().toISOString(), ...event }`.
The spread `...event` comes last, so fields already present on the input
override the generated `id` / `timestamp`.  `fresh` is the uuid drawn at
publish time, `now` the ISO-8601 time. -/
def enrich (fresh now : String) (e : PartialEvent) : Event :=
  { id := e.id?.getD fresh, timestamp := e.timestamp?.getD now, type := e.type }

/-- Retention-buffer maintenance from `publish` (identical in both
backends): `this.eventQueue.push(enrichedEvent)` followed by
`if (this.eventQueue.length > this.maxQueueSize) this.eventQueue.shift()`
with `maxQueueSize = 1000`. -/
def pushBounded {α : Type} (q : List α) (e : α) : List α :=
  let q2 := q ++ [e]
  if 1000 < q2.length then q2.tail else q2

/-- The retention-buffer state of `InMemoryEventBus` (the local cache of
`RabbitMQEventBus` behaves identically).  Delivery to the listener list
of the underlying `EventEmitter` is modelled separately by `busRun`. -/
structure MemBus where
  eventQueue : List Event
deriving Repr

/-- `InMemoryEventBus.publish`: enrich the event, append to the bounded
retention buffer, return the enriched event. -/
def MemBus.publish (bus : MemBus) (fresh now : String) (e : PartialEvent) :
    MemBus × Event :=
  let ev := enrich fresh now e
  (⟨pushBounded bus.eventQueue ev⟩, ev)

/-- `getEventQueue()`: returns the retention buffer, oldest first. -/
def MemBus.getEventQueue (bus : MemBus) : List Event :=
  bus.eventQueue

/-- One externally visible call on one bus: `publish(e)`, `subscribe`
registering callback `cb` (`this.on('event', callback)`), or one
invocation of the unsubscribe closure of the subscription that
registered `cb` (`this.off('event', callback)` for the in-memory
backend, consumer cancellation for the broker backend).  Callbacks and
queue tokens are identified by natural numbers. -/
inductive BusOp (ε : Type) where
  | publish (e : ε)
  | subscribe (cb : Nat)
  | unsubscribe (cb : Nat)
deriving DecidableEq, Repr

/-- Node's `EventEmitter.removeListener` (`off`): removes the most
recently added registration of the callback, if any registration is
present. -/
def offListener (l : List Nat) (cb : Nat) : List Nat :=
  (l.reverse.erase cb).reverse

/-- Effect of one bus operation on the registration list: `on` appends,
the unsubscribe closure removes one registration via the backend's
removal discipline `rem` (`offListener` for the in-memory emitter,
`List.erase` on unique queue tokens for the broker backend), `publish`
leaves registrations unchanged. -/
def applyOp {ε : Type} (rem : List Nat → Nat → List Nat) (l : List Nat) :
    BusOp ε → List Nat
  | .publish _ => l
  | .subscribe cb => l ++ [cb]
  | .unsubscribe cb => rem l cb

/-- Callback invocations triggered by one operation: `emit('event', ev)`
calls every currently registered listener, in registration order, with
the published event; registration changes invoke nothing. -/
def emitOp {ε : Type} (l : List Nat) : BusOp ε → List (Nat × ε)
  | .publish e => l.map (fun cb => (cb, e))
  | .subscribe _ => []
  | .unsubscribe _ => []

/-- Run a sequence of bus operations starting from registration list
`l`, collecting the chronological callback-invocation log. -/
def busRun {ε : Type} (rem : List Nat → Nat → List Nat) (l : List Nat) :
    List (BusOp ε) → List (Nat × ε)
  | [] => []
  | op :: t => emitOp l op ++ busRun rem (applyOp rem l op) t

/-- The registration list after a sequence of operations. -/
def applyOps {ε : Type} (rem : List Nat → Nat → List Nat) (l : List Nat)
    (t : List (BusOp ε)) : List Nat :=
  t.foldl (applyOp rem) l

/-- The events a given callback is invoked on, in invocation order. -/
def invocationsOf {ε : Type} (cb : Nat) (log : List (Nat × ε)) : List ε :=
  (log.filter (fun p => p.1 == cb)).map Prod.snd

/-- The events published by a trace, in publish order. -/
def publishes {ε : Type} : List (BusOp ε) → List ε
  | [] => []
  | .publish e :: t => e :: publishes t
  | .subscribe _ :: t => publishes t
  | .unsubscribe _ :: t => publishes t

/-- Whether the operation subscribes or unsubscribes this callback. -/
def touches {ε : Type} (cb : Nat) : BusOp ε → Bool
  | .publish _ => false
  | .subscribe c => c == cb
  | .unsubscribe c => c == cb

theorem invocationsOf_append {ε : Type} (cb : Nat) (a b : List (Nat × ε)) :
    invocationsOf cb (a ++ b) = invocationsOf cb a ++ invocationsOf cb b := by
  simp [invocationsOf]

theorem invocationsOf_emit {ε : Type} (cb : Nat) (l : List Nat) (e : ε) :
    invocationsOf cb (l.map (fun c => (c, e))) = List.replicate (l.count cb) e := by
  induction l with
  | nil => rfl
  | cons a t ih =>
    by_cases h : a = cb
    · subst h
      simp [invocationsOf, List.count_cons, List.replicate] at *
      exact ih
    · simp [invocationsOf, List.count_cons, h, Ne.symm h] at *
      exact ih

theorem busRun_append {ε : Type} (rem : List Nat → Nat → List Nat)
    (l : List Nat) (t t' : List (BusOp ε)) :
    busRun rem l (t ++ t') = busRun rem l t ++ busRun rem (applyOps rem l t) t' := by
  induction t generalizing l with
  | nil => simp [busRun, applyOps]
  | cons op t ih => simp [busRun, applyOps, ih, List.append_assoc, List.foldl_cons]

theorem count_applyOp_of_ne {ε : Type} (rem : List Nat → Nat → List Nat)
    (hrem2 : ∀ l a b, a ≠ b → (rem l b).count a = l.count a)
    (cb : Nat) (l : List Nat) (op : BusOp ε) (hop : touches cb op = false) :
    (applyOp rem l op).count cb = l.count cb := by
  cases op with
  | publish e => rfl
  | subscribe c =>
    simp [touches] at hop
    simp [applyOp, List.count_append, hop, Ne.symm hop]
  | unsubscribe c =>
    simp [touches] at hop
    exact hrem2 l cb c (Ne.symm hop)

theorem busRun_steady {ε : Type} (rem : List Nat → Nat → List Nat)
    (hrem2 : ∀ l a b, a ≠ b → (rem l b).count a = l.count a)
    (cb n : Nat) (t : List (BusOp ε)) (l : List Nat)
    (hl : l.count cb = n) (ht : ∀ op ∈ t, touches cb op = false) :
    invocationsOf cb (busRun rem l t) = (publishes t).flatMap (List.replicate n) ∧
      (applyOps rem l t).count cb = n := by
  induction t generalizing l with
  | nil => simpa [busRun, invocationsOf, applyOps, publishes] using hl
  | cons op t ih =>
    have hop : touches cb op = false := ht op (by simp)
    have ht' : ∀ op ∈ t, touches cb op = false := fun o ho => ht o (by simp [ho])
    have hstate : (applyOp rem l op).count cb = n := by
      rw [count_applyOp_of_ne rem hrem2 cb l op hop]; exact hl
    have ihr := ih (applyOp rem l op) hstate ht'
    constructor
    · cases op with
      | publish e =>
        simp only [busRun, invocationsOf_append]
        rw [ihr.1]
        simp [emitOp, invocationsOf_emit, publishes, applyOp, hl]
      | subscribe c =>
        simp only [busRun, emitOp, List.nil_append]
        rw [ihr.1]
        simp [publishes]
      | unsubscribe c =>
        simp only [busRun, emitOp, List.nil_append]
        rw [ihr.1]
        simp [publishes]
    · simpa [applyOps, List.foldl_cons] using ihr.2

theorem flatMap_replicate_zero {ε : Type} (l : List ε) :
    l.flatMap (List.replicate 0) = [] := by
  induction l <;> simp_all

theorem flatMap_replicate_one {ε : Type} (l : List ε) :
    l.flatMap (List.replicate 1) = l := by
  induction l <;> simp_all

/-- The subscription-window guarantee, generic in the backend's removal
discipline `rem`: a callback subscribed once and later unsubscribed is
invoked exactly on the events published in between, in publish order. -/
theorem busWindow {ε : Type} (rem : List Nat → Nat → List Nat)
    (hrem1 : ∀ l a, (rem l a).count a = l.count a - 1)
    (hrem2 : ∀ l a b, a ≠ b → (rem l b).count a = l.count a)
    (cb : Nat) (t1 t2 t3 : List (BusOp ε))
    (h1 : ∀ op ∈ t1, touches cb op = false)
    (h2 : ∀ op ∈ t2, touches cb op = false)
    (h3 : ∀ op ∈ t3, touches cb op = false) :
    invocationsOf cb
      (busRun rem [] (t1 ++ BusOp.subscribe cb :: (t2 ++ BusOp.unsubscribe cb :: t3)))
      = publishes t2 := by
  have s1 := busRun_steady rem hrem2 cb 0 t1 [] (by simp) h1
  rw [busRun_append, invocationsOf_append, s1.1, flatMap_replicate_zero]
  set A1 := applyOps rem [] t1 with hA1
  show invocationsOf cb (busRun rem A1 (BusOp.subscribe cb :: (t2 ++ BusOp.unsubscribe cb :: t3))) = publishes t2
  rw [show busRun rem A1 (BusOp.subscribe cb :: (t2 ++ BusOp.unsubscribe cb :: t3))
        = busRun rem (A1 ++ [cb]) (t2 ++ BusOp.unsubscribe cb :: t3) by
      simp [busRun, emitOp, applyOp]]
  have hc1 : (A1 ++ [cb]).count cb = 1 := by
    simp [List.count_append, s1.2]
  have s2 := busRun_steady rem hrem2 cb 1 t2 (A1 ++ [cb]) hc1 h2
  rw [busRun_append, invocationsOf_append, s2.1, flatMap_replicate_one]
  set A2 := applyOps rem (A1 ++ [cb]) t2 with hA2
  have hc0 : (rem A2 cb).count cb = 0 := by
    rw [hrem1, s2.2]
  have s3 := busRun_steady rem hrem2 cb 0 t3 (rem A2 cb) hc0 h3
  rw [show busRun rem A2 (BusOp.unsubscribe cb :: t3) = busRun rem (rem A2 cb) t3 by
      simp [busRun, emitOp, applyOp]]
  rw [s3.1, flatMap_replicate_zero, List.append_nil]

theorem offListener_count_self (l : List Nat) (cb : Nat) :
    (offListener l cb).count cb = l.count cb - 1 := by
  simp [offListener, List.count_reverse, List.count_erase_self]

theorem offListener_count_ne (l : List Nat) {a b : Nat} (h : a ≠ b) :
    (offListener l b).count a = l.count a := by
  simp [offListener, List.count_reverse, List.count_erase_of_ne h]

theorem erase_count_self (l : List Nat) (cb : Nat) :
    (l.erase cb).count cb = l.count cb - 1 :=
  List.count_erase_self cb l

theorem erase_count_ne (l : List Nat) {a b : Nat} (h : a ≠ b) :
    (l.erase b).count a = l.count a :=
  List.count_erase_of_ne h l

/-- Claim C2: for every interleaving of publish, subscribe and
unsubscribe calls on one bus in which the given subscription's callback
is not registered by any other call, the callback is invoked exactly on
the events published strictly after its subscribe and strictly before
its unsubscribe, in publish order, with no duplicates — for the
in-memory backend (emitter registration, `offListener` removal) and for
the broker backend (queue-token registration, `List.erase` removal)
alike.  Events published before the subscribe or after the unsubscribe
never reach the callback. -/
theorem subscriber_receives_exact_window
    (cb : Nat) (t1 t2 t3 : List (BusOp Nat))
    (h1 : ∀ op ∈ t1, touches cb op = false)
    (h2 : ∀ op ∈ t2, touches cb op = false)
    (h3 : ∀ op ∈ t3, touches cb op = false) :
    invocationsOf cb
      (busRun offListener [] (t1 ++ BusOp.subscribe cb :: (t2 ++ BusOp.unsubscribe cb :: t3)))
      = publishes t2
    ∧ invocationsOf cb
      (busRun List.erase [] (t1 ++ BusOp.subscribe cb :: (t2 ++ BusOp.unsubscribe cb :: t3)))
      = publishes t2 := by
  constructor
  · exact busWindow offListener offListener_count_self
      (fun l a b h => offListener_count_ne l h) cb t1 t2 t3 h1 h2 h3
  · exact busWindow List.erase erase_count_self
      (fun l a b h => erase_count_ne l h) cb t1 t2 t3 h1 h2 h3

/-- Witness for C2: callback 5 subscribed after a publish of 10,
unsubscribed after publishes of 20 and 30, with 40 published afterwards,
receives exactly [20, 30] on both backends. -/
theorem subscriber_receives_exact_window_witness :
    invocationsOf 5
      (busRun offListener [] ([BusOp.publish 10] ++ BusOp.subscribe 5 ::
        ([BusOp.publish 20, BusOp.publish 30] ++ BusOp.unsubscribe 5 :: [BusOp.publish 40])))
      = publishes ([BusOp.publish 20, BusOp.publish 30] : List (BusOp Nat))
    ∧ invocationsOf 5
      (busRun List.erase [] ([BusOp.publish 10] ++ BusOp.subscribe 5 ::
        ([BusOp.publish 20, BusOp.publish 30] ++ BusOp.unsubscribe 5 :: [BusOp.publish 40])))
      = publishes ([BusOp.publish 20, BusOp.publish 30] : List (BusOp Nat)) :=
  subscriber_receives_exact_window 5 _ _ _ (by decide) (by decide) (by decide)

/-- Claim C9 counterexample: two subscriptions registered the same
callback 5.  Calling the first subscription's unsubscribe closure a
second time is not a no-op on the in-memory backend: `off` removes the
second subscription's emitter registration, so a subsequent publish of 7
no longer invokes the callback, although with a single unsubscribe call
it would.  Delivery changed, refuting the claim. -/
theorem unsubscribe_twice_changes_delivery :
    busRun offListener []
        [BusOp.subscribe 5, BusOp.subscribe 5, BusOp.unsubscribe 5,
         BusOp.unsubscribe 5, BusOp.publish 7]
      ≠ busRun offListener []
        [BusOp.subscribe 5, BusOp.subscribe 5, BusOp.unsubscribe 5,
         BusOp.publish (7 : Nat)] := by
  decide

/-- Claim C9 (amended): a second call of the unsubscribe closure never
throws (the model is total) and is a no-op provided the callback has no
remaining registration — which after the first call holds whenever no
other live subscription shares the same callback.  The broker backend's
token removal and the subscriber-set deletion are no-ops unconditionally
on the second call, since the token was already removed. -/
theorem unsubscribe_second_noop (l : List Nat) (cb : Nat)
    (h : l.count cb = 0) (subs : List Nat) (sid : Nat) (hs : sid ∉ subs) :
    offListener l cb = l ∧ subs.erase sid = subs := by
  constructor
  · have : cb ∉ l.reverse := by
      simp [List.mem_reverse]
      exact (List.count_eq_zero.mp h)
    simp [offListener, List.erase_of_not_mem this]
  · exact List.erase_of_not_mem hs

/-- Witness for the amended C9: with no registration of callback 5 left
and subscriber token 3 already deleted, a further unsubscribe call
changes nothing. -/
theorem unsubscribe_second_noop_witness :
    offListener [4, 6] 5 = [4, 6] ∧ List.erase [9] 3 = [9] :=
  unsubscribe_second_noop [4, 6] 5 (by decide) [9] 3 (by decide)

theorem pushBounded_length_le {α : Type} (q : List α) (e : α)
    (hq : q.length ≤ 1000) : (pushBounded q e).length ≤ 1000 := by
  by_cases h : 1000 < (q ++ [e]).length
  · have hpb : pushBounded q e = (q ++ [e]).tail := by
      unfold pushBounded
      rw [if_pos h]
    rw [hpb]
    simp
    omega
  · have hpb : pushBounded q e = q ++ [e] := by
      unfold pushBounded
      rw [if_neg h]
    rw [hpb]
    simp at h ⊢
    omega

theorem pushBounded_foldl {α : Type} (l : List α) (q : List α)
    (hq : q.length ≤ 1000) :
    l.foldl pushBounded q = (q ++ l).drop ((q ++ l).length - 1000) := by
  induction l generalizing q with
  | nil => simp [Nat.sub_eq_zero_of_le hq]
  | cons e t ih =>
    rw [List.foldl_cons]
    by_cases h : 1000 < q.length + 1
    · have hq1000 : q.length = 1000 := by omega
      have hqne : q ≠ [] := by
        intro hcon
        rw [hcon] at hq1000
        simp at hq1000
      have hpb : pushBounded q e = q.tail ++ [e] := by
        unfold pushBounded
        rw [if_pos (by simp; omega)]
        cases q with
        | nil => exact absurd rfl hqne
        | cons a q' => simp
      rw [hpb, ih (q.tail ++ [e]) (by simp [List.length_tail]; omega)]
      cases q with
      | nil => exact absurd rfl hqne
      | cons a q' =>
        have hq' : q'.length = 999 := by
          simp at hq1000
          omega
        simp only [List.tail_cons, List.append_assoc, List.singleton_append,
          List.cons_append]
        have hlen : (a :: (q' ++ e :: t)).length - 1000
            = ((q' ++ e :: t).length - 1000) + 1 := by
          simp
          omega
        rw [hlen, List.drop_succ_cons]
        simp
    · have hpb : pushBounded q e = q ++ [e] := by
        unfold pushBounded
        rw [if_neg (by simp; omega)]
      rw [hpb, ih (q ++ [e]) (by simp; omega)]
      simp [List.append_assoc]

theorem head?_drop_eq {α : Type} (l : List α) (n : Nat) :
    (l.drop n).head? = l[n]? := by
  induction l generalizing n with
  | nil => simp
  | cons a t ih =>
    cases n with
    | zero => simp
    | succ m =>
      simp only [List.drop_succ_cons, List.getElem?_cons_succ]
      exact ih m

/-- Claim C3: the retention buffer (shared maintenance code of both
backends, applied by `MemBus.publish` / `getEventQueue`) never holds
more than 1000 events after any sequence of publishes from an empty
buffer; its content is exactly the most recent 1000 published events in
publish order (oldest first, the oldest evicted on overflow); in
particular after 1001 publishes the buffer head is the second published
event. -/
theorem retention_buffer_bounded {α : Type} (l : List α) :
    (l.foldl pushBounded []).length ≤ 1000
    ∧ l.foldl pushBounded [] = l.drop (l.length - 1000)
    ∧ (l.length = 1001 → (l.foldl pushBounded []).head? = l[1]?)
    ∧ ∀ (bus : MemBus) (fresh now : String) (e : PartialEvent),
        ((bus.publish fresh now e).1).getEventQueue
          = pushBounded bus.getEventQueue (enrich fresh now e) := by
  have hmain : l.foldl pushBounded [] = l.drop (l.length - 1000) := by
    simpa using pushBounded_foldl l [] (by simp)
  refine ⟨?_, hmain, ?_, fun bus fresh now e => rfl⟩
  · rw [hmain]
    simp
    omega
  · intro hlen
    rw [hmain, hlen]
    have h11 : 1001 - 1000 = 1 := rfl
    rw [h11]
    exact head?_drop_eq l 1

/-- Witness for C3: after publishing 0, 1, …, 1000 (1001 events) the
buffer head is the second published event, 1. -/
theorem retention_buffer_bounded_witness :
    ((List.range 1001).foldl pushBounded []).head? = some 1 := by
  have h := (retention_buffer_bounded (List.range 1001)).2.2.1 (by simp)
  simpa using h

/-- Claim C4 counterexample: an input event that itself carries `id` and
`timestamp` fields keeps them — the JS spread `...event` is applied
after the generated fields — so the published event's `id` is the
caller-supplied "X", not the freshly generated uuid "FRESH", and its
`timestamp` is "Y", not the generation time "NOW". -/
theorem publish_id_override_counterexample :
    ¬ (((MemBus.mk []).publish "FRESH" "NOW" ⟨some "X", some "Y", "boot"⟩).2.id = "FRESH")
    ∧ ((MemBus.mk []).publish "FRESH" "NOW" ⟨some "X", some "Y", "boot"⟩).2.id = "X"
    ∧ ((MemBus.mk []).publish "FRESH" "NOW" ⟨some "X", some "Y", "boot"⟩).2.timestamp = "Y" := by
  refine ⟨?_, rfl, rfl⟩
  intro h
  simp [MemBus.publish, enrich] at h

/-- Claim C4 (amended): for every input event that does not itself carry
`id` or `timestamp` fields, publish returns — and appends to the
retention buffer — an event whose `id` is the uuid freshly generated at
publish time and whose `timestamp` is the ISO-8601 generation time;
input-supplied `id`/`timestamp` fields override the generated ones
because the spread comes last. -/
theorem publish_assigns_fresh_fields (bus : MemBus) (fresh now : String)
    (e : PartialEvent) (h1 : e.id? = none) (h2 : e.timestamp? = none) :
    (bus.publish fresh now e).2 = ⟨fresh, now, e.type⟩
    ∧ (bus.publish fresh now e).1.getEventQueue
        = pushBounded bus.getEventQueue ⟨fresh, now, e.type⟩ := by
  constructor
  · simp [MemBus.publish, enrich, h1, h2]
  · simp [MemBus.publish, MemBus.getEventQueue, enrich, h1, h2]

/-- Witness for the amended C4: a plain `agent_started` event with no
`id`/`timestamp` of its own is enriched with the fresh uuid "F" and
time "N". -/
theorem publish_assigns_fresh_fields_witness :
    ((MemBus.mk []).publish "F" "N" ⟨none, none, "agent_started"⟩).2
        = ⟨"F", "N", "agent_started"⟩
    ∧ ((MemBus.mk []).publish "F" "N" ⟨none, none, "agent_started"⟩).1.getEventQueue
        = pushBounded (MemBus.mk []).getEventQueue ⟨"F", "N", "agent_started"⟩ :=
  publish_assigns_fresh_fields (MemBus.mk []) "F" "N" ⟨none, none, "agent_started"⟩ rfl rfl

/-- The record returned by `Agent.execute`:
`{success: true, result, agentId, agentName}` or
`{success: false, error, agentId, agentName}` (the absent field is
modelled as the empty string). -/
structure AgentResult where
  success : Bool
  result : String
  error : String
  agentId : String
  agentName : String
deriving DecidableEq, Repr

/-- One step of a plan: `{agentId, task, dependencies: [stepId]}`. -/
structure PlanStep where
  agentId : String
  task : String
  dependencies : List String
deriving DecidableEq, Repr

/-- The parsed planning object `{analysis, plan, clarifications}`;
absent fields behave as empty lists, as in the JS truthiness checks. -/
structure PlanObj where
  plan : List PlanStep
  clarifications : List String
  analysis : String
deriving DecidableEq, Repr

/-- The synthesized final result
`{success: true, result, agentResults, analysis}`. -/
structure SynthResult where
  success : Bool
  result : String
  agentResults : List AgentResult
  analysis : String
deriving DecidableEq, Repr

/-- A task record owned by the task store.  `clarification` holds the
open questions and the context's original request while the task waits. -/
structure TaskRec where
  status : String
  request : String
  result : Option SynthResult
  error : Option String
  clarification : Option (List String × String)
deriving DecidableEq, Repr

/-- A bus event as seen by the clarification handler: it inspects only
`type`, `taskId` and `answer`. -/
structure ClarEvent where
  type : String
  taskId : Nat
  answer : String
deriving DecidableEq, Repr

/-- The events `orchestrateAsync` itself publishes, with the payload
fields it supplies. -/
inductive OEvent where
  | started (taskId : Nat) (request : String)
  | needsClarification (taskId : Nat) (clarifications : List String)
  | planCreated (taskId : Nat) (plan : List PlanStep) (analysis : String)
  | delegating (taskId : Nat) (agentId task : String)
  | completed (taskId : Nat)
  | orchestratorError (taskId : Nat) (error : String)
deriving DecidableEq, Repr

/-- The two arguments of `agent.execute(planTask.task, {dependencies,
originalRequest})` as passed during delegation.  `dependencies` is the
object keyed by dependency step id, in insertion order. -/
structure AgentCall where
  agentId : String
  task : String
  dependencies : List (String × AgentResult)
  originalRequest : String
deriving DecidableEq, Repr

/-- Index of the last occurrence of a character, if any. -/
def lastIdxOf (c : Char) (cs : List Char) : Option Nat :=
  (cs.reverse.findIdx? (fun x => x == c)).map (fun k => cs.length - 1 - k)

/-- The regex match `planningResponse.result.match(/\{[\s\S]*\}/)`: the
greedy match runs from the first opening brace to the last closing
brace, and exists exactly when that first opening brace is followed by
some closing brace. -/
def regexBraceMatch (cs : List Char) : Option (List Char) :=
  match cs.findIdx? (fun x => x == '{') with
  | none => none
  | some i =>
    match lastIdxOf '}' cs with
    | none => none
    | some j => if i < j then some ((cs.drop i).take (j - i + 1)) else none

/-- Plan parsing in `orchestrateAsync`: regex-match the planning text
for a JSON object and `JSON.parse` it (the parser is the oracle `parse`;
`none` models a thrown parse error); with no match or a parse failure,
degrade to `{ plan: [], clarifications: [], analysis: raw }`. -/
def parsePlan (parse : String → Option PlanObj) (raw : String) : PlanObj :=
  match regexBraceMatch raw.data with
  | some m =>
    match parse (String.mk m) with
    | some p => p
    | none => ⟨[], [], raw⟩
  | none => ⟨[], [], raw⟩

/-- `waitForClarificationAnswer`: the registered handler resolves on the
first bus event with `type === 'task_clarification_answer'` and a
matching `taskId`; every other event is ignored.  Returns the answer and
the events still unconsumed; `none` models a promise that never
resolves. -/
def waitClar (tid : Nat) : List ClarEvent → Option (String × List ClarEvent)
  | [] => none
  | ev :: rest =>
    if ev.type = "task_clarification_answer" ∧ ev.taskId = tid then
      some (ev.answer, rest)
    else
      waitClar tid rest

/-- `Map.set` on `this.taskResults`: overwrite an existing key in place,
otherwise append (JS `Map` preserves insertion order). -/
def mapSet (m : List (String × AgentResult)) (k : String) (v : AgentResult) :
    List (String × AgentResult) :=
  if m.any (fun p => p.1 == k) then
    m.map (fun p => if p.1 == k then (k, v) else p)
  else
    m ++ [(k, v)]

/-- The oracles `orchestrateAsync` interacts with: its own planning
`execute` (the Completion Service behind it), `JSON.parse`, the
registered-agent map with each agent's behaviour, the synthesis
Completion call, and `Date.now()` (the value of the i-th call). -/
structure OrcEnv where
  planner : String → AgentResult
  parse : String → Option PlanObj
  agents : List (String × (AgentCall → AgentResult))
  synth : String → List AgentResult → String → Except String String
  times : Nat → Nat

/-- Orchestrator instance state threaded through a run: the persistent
`this.taskResults` map, the count of `Date.now()` calls made so far, and
the bus events the clarification handler has yet to observe. -/
structure OrcState where
  taskResults : List (String × AgentResult)
  k : Nat
  stream : List ClarEvent

/-- Output of the delegation loop. -/
structure StepsOut where
  events : List OEvent
  calls : List AgentCall
  results : List AgentResult
  taskResults : List (String × AgentResult)
  k : Nat
deriving Repr

/-- The delegation loop of `orchestrateAsync` (lines 130-167): for each
plan step, skip with an `orchestrator_error` event if the agent id is
unregistered; otherwise resolve the listed dependency ids against
`this.taskResults` (misses silently omitted), publish
`orchestrator_delegating`, invoke the agent, and record its result under
the key `planTask.agentId + '_' + Date.now()`. -/
def runSteps (env : OrcEnv) (tid : Nat) (request : String) :
    List PlanStep → List (String × AgentResult) → Nat → StepsOut
  | [], m, k => ⟨[], [], [], m, k⟩
  | s :: rest, m, k =>
    match env.agents.lookup s.agentId with
    | none =>
      let o := runSteps env tid request rest m k
      ⟨OEvent.orchestratorError tid ("Agent " ++ s.agentId ++ " not found") :: o.events,
        o.calls, o.results, o.taskResults, o.k⟩
    | some beh =>
      let deps := s.dependencies.filterMap
        (fun d => (m.lookup d).map (fun r => (d, r)))
      let call : AgentCall := ⟨s.agentId, s.task, deps, request⟩
      let r := beh call
      let key := s.agentId ++ "_" ++ Nat.repr (env.times k)
      let o := runSteps env tid request rest (mapSet m key r) (k + 1)
      ⟨OEvent.delegating tid s.agentId s.task :: o.events,
        call :: o.calls, r :: o.results, o.taskResults, o.k⟩

/-- How one call of `orchestrateAsync` ends: resolve with the final
result, reject with a thrown message, stay pending on an unanswered
clarification, or exhaust the recursion bound `fuel` (an artifact of the
embedding — the source recursion is unbounded). -/
inductive Outcome where
  | ok (finalResult : SynthResult)
  | err (msg : String)
  | blocked
  | outOfFuel
deriving DecidableEq, Repr

/-- Observable history of one `orchestrateAsync` call: its outcome, the
final task record, the events it published, every `agent.execute`
delegation with its arguments, the request text of every planning call,
the successive values assigned to `task.status`, and the final
`this.taskResults`. -/
structure OrcOut where
  outcome : Outcome
  task : Option TaskRec
  events : List OEvent
  calls : List AgentCall
  planCalls : List String
  statusTrace : List String
  taskResults : List (String × AgentResult)
deriving Repr

/-- `OrchestratorAgent.orchestrateAsync(taskId, userRequest)`.  The task
is looked up first ('Task not found' before any publish); then
`orchestrator_started` is published and planning runs; a failed planning
response is thrown and caught (task status 'error'); the planning text
is parsed with degradation; a non-empty `clarifications` list parks the
task in 'waiting_for_clarification' until a matching
`task_clarification_answer` arrives, then recurses on the request
augmented with the answer; otherwise the plan is announced, the steps
are delegated sequentially, and synthesis completes the task
('completed') or its failure is caught (task status 'error'). -/
def orchestrateAsync (env : OrcEnv) :
    Nat → Option TaskRec → Nat → String → OrcState → OrcOut
  | 0, _, _, _, st => ⟨.outOfFuel, none, [], [], [], [], st.taskResults⟩
  | Nat.succ fuel, store, tid, request, st =>
    match store with
    | none => ⟨.err "Task not found", none, [], [], [], [], st.taskResults⟩
    | some task =>
      let ev0 := OEvent.started tid request
      let pr := env.planner request
      if pr.success then
        let plan := parsePlan env.parse pr.result
        if plan.clarifications ≠ [] then
          let task1 := { task with
            status := "waiting_for_clarification"
            clarification := some (plan.clarifications, request) }
          let ev1 := OEvent.needsClarification tid plan.clarifications
          match waitClar tid st.stream with
          | none =>
            ⟨.blocked, some task1, [ev0, ev1], [], [request],
              ["waiting_for_clarification"], st.taskResults⟩
          | some (ans, rest) =>
            let task2 := { task1 with status := "running", clarification := none }
            let o := orchestrateAsync env fuel (some task2) tid
              (request ++ "\n\nClarifications: " ++ ans)
              { st with stream := rest }
            ⟨o.outcome, o.task, ev0 :: ev1 :: o.events, o.calls,
              request :: o.planCalls,
              "waiting_for_clarification" :: "running" :: o.statusTrace,
              o.taskResults⟩
        else
          let ev1 := OEvent.planCreated tid plan.plan plan.analysis
          let o := runSteps env tid request plan.plan st.taskResults st.k
          match env.synth request o.results plan.analysis with
          | .error m =>
            ⟨.err m, some { task with status := "error", error := some m },
              ev0 :: ev1 :: (o.events ++ [OEvent.orchestratorError tid m]),
              o.calls, [request], ["error"], o.taskResults⟩
          | .ok content =>
            let final : SynthResult := ⟨true, content, o.results, plan.analysis⟩
            ⟨.ok final,
              some { task with status := "completed", result := some final },
              ev0 :: ev1 :: (o.events ++ [OEvent.completed tid]),
              o.calls, [request], ["completed"], o.taskResults⟩
      else
        let msg := "Planning failed: " ++ pr.error
        ⟨.err msg, some { task with status := "error", error := some msg },
          [ev0, OEvent.orchestratorError tid msg], [], [request], ["error"],
          st.taskResults⟩

/-- A tool invocation returned by the Completion Service:
`{function: {name, arguments}}` with `arguments` a JSON string. -/
structure ToolCall where
  name : String
  arguments : String
deriving DecidableEq, Repr

/-- The message returned by the Completion Service: its text content
and, optionally, tool invocations (`response.tool_calls` is absent when
no tools are requested). -/
structure CompletionMsg where
  content : String
  toolCalls : Option (List ToolCall)
deriving DecidableEq, Repr

/-- The lifecycle events `Agent.execute` publishes. -/
inductive AEvent where
  | started (agentId agentName task : String)
  | thinking (agentId agentName : String) (availableTools : Nat)
  | toolCallsMade (agentId agentName : String) (names : List String)
  | completedOk (agentId agentName result : String)
  | agentError (agentId agentName msg : String)
deriving DecidableEq, Repr

/-- The configuration of an agent (`backend/agent.js` constructor):
its id, display name and the names of the tools gathered from its MCP
servers. -/
structure Agent where
  id : String
  name : String
  tools : List String
deriving DecidableEq, Repr

/-- The external collaborators of `Agent.execute`: the first Completion
call (which may reject), `JSON.parse` on each tool call's arguments
(which may throw), the MCP servers — each a set of owned tool names with
a Tool Runner that may fail — and the follow-up Completion call on the
accumulated messages. -/
structure AgentEnv where
  complete1 : String → String → Except String CompletionMsg
  parseArgs : String → Except String String
  servers : List (List String × (String → String → Except String String))
  complete2 : List (String × String) → Except String String

/-- The tool-call loop of `Agent.execute` (lines 133-149): parse each
call's arguments (a parse error throws out of the loop), look up the
first MCP server owning the tool (an unowned tool is silently skipped),
run the tool (an error throws out of the loop), and push the
`(name, result)` function message. -/
def runTools (env : AgentEnv) : List ToolCall → Except String (List (String × String))
  | [] => .ok []
  | tc :: rest =>
    match env.parseArgs tc.arguments with
    | .error m => .error m
    | .ok args =>
      match env.servers.find? (fun srv => srv.1.contains tc.name) with
      | none => runTools env rest
      | some srv =>
        match srv.2 tc.name args with
        | .error m => .error m
        | .ok r =>
          match runTools env rest with
          | .error m => .error m
          | .ok ms => .ok ((tc.name, r) :: ms)

/-- `Agent.execute(task, context)`: publish `agent_started`, then inside
the try block publish `agent_thinking`, call the Completion Service,
optionally run the tool loop followed by the second Completion call,
publish `agent_completed` and return `{success: true, ...}`; any error
along the way is caught, published as `agent_error`, and returned as
`{success: false, ...}` — nothing is rethrown. -/
def Agent.execute (a : Agent) (env : AgentEnv) (task ctx : String) :
    AgentResult × List AEvent :=
  let ev0 := AEvent.started a.id a.name task
  let evT := AEvent.thinking a.id a.name a.tools.length
  match env.complete1 task ctx with
  | .error m =>
    (⟨false, "", m, a.id, a.name⟩, [ev0, evT, AEvent.agentError a.id a.name m])
  | .ok comp =>
    match comp.toolCalls with
    | none =>
      (⟨true, comp.content, "", a.id, a.name⟩,
        [ev0, evT, AEvent.completedOk a.id a.name comp.content])
    | some tcs =>
      let evC := AEvent.toolCallsMade a.id a.name (tcs.map ToolCall.name)
      match runTools env tcs with
      | .error m =>
        (⟨false, "", m, a.id, a.name⟩,
          [ev0, evT, evC, AEvent.agentError a.id a.name m])
      | .ok msgs =>
        match env.complete2 msgs with
        | .error m =>
          (⟨false, "", m, a.id, a.name⟩,
            [ev0, evT, evC, AEvent.agentError a.id a.name m])
        | .ok content2 =>
          (⟨true, content2, "", a.id, a.name⟩,
            [ev0, evT, evC, AEvent.completedOk a.id a.name content2])

/-- Claim C6: `Agent.execute` never lets an exception escape its own
boundary — the embedding is a total function over every oracle outcome
(Completion Service error, Tool Runner error, malformed tool arguments).
Every run ends either successfully, returning
`{success: true, result, agentId, agentName}` with a final
`agent_completed` event carrying the result, or in failure, returning
`{success: false, error, agentId, agentName}` with a final `agent_error`
event carrying the failure message. -/
theorem agent_execute_total_contract (a : Agent) (env : AgentEnv) (task ctx : String) :
    ((Agent.execute a env task ctx).1.agentId = a.id
      ∧ (Agent.execute a env task ctx).1.agentName = a.name)
    ∧ (((Agent.execute a env task ctx).1.success = true
        ∧ (Agent.execute a env task ctx).2.getLast?
            = some (AEvent.completedOk a.id a.name (Agent.execute a env task ctx).1.result))
      ∨ ((Agent.execute a env task ctx).1.success = false
        ∧ (Agent.execute a env task ctx).2.getLast?
            = some (AEvent.agentError a.id a.name (Agent.execute a env task ctx).1.error))) := by
  cases h1 : env.complete1 task ctx with
  | error m => simp [Agent.execute, h1]
  | ok comp =>
    cases h2 : comp.toolCalls with
    | none => simp [Agent.execute, h1, h2]
    | some tcs =>
      cases h3 : runTools env tcs with
      | error m => simp [Agent.execute, h1, h2, h3]
      | ok msgs =>
        cases h4 : env.complete2 msgs with
        | error m => simp [Agent.execute, h1, h2, h3, h4]
        | ok content2 => simp [Agent.execute, h1, h2, h3, h4]

/-- Claim C10: when the task id has no entry in the task store — or no
store was ever set, both making `this.taskStore?.get(taskId)` yield
nothing — `orchestrateAsync` fails immediately with 'Task not found':
no event is published (in particular no `orchestrator_started`), no
planning call is made, no task status is assigned, and the stored
results are untouched. -/
theorem task_not_found_fails_fast (env : OrcEnv) (fuel : Nat) (tid : Nat)
    (request : String) (st : OrcState) :
    (orchestrateAsync env (fuel + 1) none tid request st).outcome
        = Outcome.err "Task not found"
    ∧ (orchestrateAsync env (fuel + 1) none tid request st).events = []
    ∧ (orchestrateAsync env (fuel + 1) none tid request st).planCalls = []
    ∧ (orchestrateAsync env (fuel + 1) none tid request st).statusTrace = []
    ∧ (orchestrateAsync env (fuel + 1) none tid request st).taskResults
        = st.taskResults :=
  ⟨rfl, rfl, rfl, rfl, rfl⟩

/-- Claim C8: when the planning text contains no JSON object (the brace
regex finds no match), orchestration degrades instead of crashing: the
plan has empty steps and clarifications, its analysis is the raw
planning text, no agent is ever delegated to, and — synthesis of the
empty result list succeeding — the task reaches 'completed'. -/
theorem malformed_plan_degrades (env : OrcEnv) (fuel : Nat) (task : TaskRec)
    (tid : Nat) (request : String) (st : OrcState) (content : String)
    (hsucc : (env.planner request).success = true)
    (hraw : regexBraceMatch (env.planner request).result.data = none)
    (hsynth : env.synth request [] (env.planner request).result
        = Except.ok content) :
    (orchestrateAsync env (fuel + 1) (some task) tid request st).outcome
        = Outcome.ok ⟨true, content, [], (env.planner request).result⟩
    ∧ (orchestrateAsync env (fuel + 1) (some task) tid request st).events
        = [OEvent.started tid request,
           OEvent.planCreated tid [] (env.planner request).result,
           OEvent.completed tid]
    ∧ (orchestrateAsync env (fuel + 1) (some task) tid request st).calls = []
    ∧ Option.map TaskRec.status
        (orchestrateAsync env (fuel + 1) (some task) tid request st).task
        = some "completed" := by
  have hplan : parsePlan env.parse (env.planner request).result
      = ⟨[], [], (env.planner request).result⟩ := by
    simp [parsePlan, hraw]
  simp [orchestrateAsync, hsucc, hplan, runSteps, hsynth]

/-- Witness for C8: a planning response with no brace in it degrades to
the analysis-only plan and the task completes. -/
theorem malformed_plan_degrades_witness :
    (orchestrateAsync
        ⟨fun _ => ⟨true, "cannot plan this", "", "orchestrator", "Orchestrator"⟩,
         fun _ => none, [], fun _ _ _ => Except.ok "S", fun k => k⟩
        1 (some ⟨"running", "REQ", none, none, none⟩) 0 "REQ" ⟨[], 0, []⟩).outcome
      = Outcome.ok ⟨true, "S", [], "cannot plan this"⟩
    ∧ (orchestrateAsync
        ⟨fun _ => ⟨true, "cannot plan this", "", "orchestrator", "Orchestrator"⟩,
         fun _ => none, [], fun _ _ _ => Except.ok "S", fun k => k⟩
        1 (some ⟨"running", "REQ", none, none, none⟩) 0 "REQ" ⟨[], 0, []⟩).events
      = [OEvent.started 0 "REQ", OEvent.planCreated 0 [] "cannot plan this",
         OEvent.completed 0]
    ∧ (orchestrateAsync
        ⟨fun _ => ⟨true, "cannot plan this", "", "orchestrator", "Orchestrator"⟩,
         fun _ => none, [], fun _ _ _ => Except.ok "S", fun k => k⟩
        1 (some ⟨"running", "REQ", none, none, none⟩) 0 "REQ" ⟨[], 0, []⟩).calls = []
    ∧ Option.map TaskRec.status (orchestrateAsync
        ⟨fun _ => ⟨true, "cannot plan this", "", "orchestrator", "Orchestrator"⟩,
         fun _ => none, [], fun _ _ _ => Except.ok "S", fun k => k⟩
        1 (some ⟨"running", "REQ", none, none, none⟩) 0 "REQ" ⟨[], 0, []⟩).task
      = some "completed" :=
  malformed_plan_degrades
    ⟨fun _ => ⟨true, "cannot plan this", "", "orchestrator", "Orchestrator"⟩,
     fun _ => none, [], fun _ _ _ => Except.ok "S", fun k => k⟩
    0 ⟨"running", "REQ", none, none, none⟩ 0 "REQ" ⟨[], 0, []⟩ "S"
    rfl (by decide) rfl

theorem runSteps_spec (env : OrcEnv) (tid : Nat) (request : String)
    (steps : List PlanStep) :
    ∀ (m : List (String × AgentResult)) (k : Nat),
    (runSteps env tid request steps m k).events
      = steps.map (fun s =>
          if (env.agents.lookup s.agentId).isSome then
            OEvent.delegating tid s.agentId s.task
          else
            OEvent.orchestratorError tid ("Agent " ++ s.agentId ++ " not found"))
    ∧ (runSteps env tid request steps m k).calls.map (fun c => (c.agentId, c.task))
      = (steps.filter (fun s => (env.agents.lookup s.agentId).isSome)).map
          (fun s => (s.agentId, s.task)) := by
  induction steps with
  | nil =>
    intro m k
    exact ⟨rfl, rfl⟩
  | cons s rest ih =>
    intro m k
    cases hl : env.agents.lookup s.agentId with
    | none =>
      have h := ih m k
      simp [runSteps, hl, h.1, h.2]
    | some beh =>
      have h := ih (mapSet m (s.agentId ++ "_" ++ Nat.repr (env.times k))
        (beh ⟨s.agentId, s.task,
          s.dependencies.filterMap (fun d => (m.lookup d).map (fun r => (d, r))),
          request⟩)) (k + 1)
      simp [runSteps, hl, h.1, h.2]

/-- Claim C7: a plan step naming an unregistered agent id yields an
`orchestrator_error` event for that step and is skipped; delegation
continues with exactly the steps whose agent is registered, in plan
order, and — synthesis succeeding — the task still reaches 'completed'
with a successful final result. -/
theorem missing_agent_nonfatal (env : OrcEnv) (fuel : Nat) (task : TaskRec)
    (tid : Nat) (request : String) (st : OrcState) (plan : PlanObj)
    (content : String)
    (hsucc : (env.planner request).success = true)
    (hplan : parsePlan env.parse (env.planner request).result = plan)
    (hclar : plan.clarifications = [])
    (hsynth : ∀ res, env.synth request res plan.analysis = Except.ok content) :
    Option.map TaskRec.status
        (orchestrateAsync env (fuel + 1) (some task) tid request st).task
        = some "completed"
    ∧ (∃ final, (orchestrateAsync env (fuel + 1) (some task) tid request st).outcome
          = Outcome.ok final ∧ final.success = true ∧ final.result = content)
    ∧ (orchestrateAsync env (fuel + 1) (some task) tid request st).events
        = OEvent.started tid request
            :: OEvent.planCreated tid plan.plan plan.analysis
            :: (plan.plan.map (fun s =>
                if (env.agents.lookup s.agentId).isSome then
                  OEvent.delegating tid s.agentId s.task
                else
                  OEvent.orchestratorError tid ("Agent " ++ s.agentId ++ " not found"))
              ++ [OEvent.completed tid])
    ∧ (orchestrateAsync env (fuel + 1) (some task) tid request st).calls.map
          (fun c => (c.agentId, c.task))
        = (plan.plan.filter (fun s => (env.agents.lookup s.agentId).isSome)).map
            (fun s => (s.agentId, s.task)) := by
  have hrs := runSteps_spec env tid request plan.plan st.taskResults st.k
  have hs := hsynth (runSteps env tid request plan.plan st.taskResults st.k).results
  simp [orchestrateAsync, hsucc, hplan, hclar, hs, hrs.1, hrs.2]

/-- Environment for the C7 witness: agents map containing only "code";
the planner proposes a ghost step followed by a code step. -/
def envC7 : OrcEnv :=
  ⟨fun _ => ⟨true, "{p}", "", "orchestrator", "Orchestrator"⟩,
   fun _ => some ⟨[⟨"ghost", "G", []⟩, ⟨"code", "T", []⟩], [], "A"⟩,
   [("code", fun _ => ⟨true, "done", "", "code", "Code Agent"⟩)],
   fun _ _ _ => Except.ok "S", fun k => k⟩

def taskC7 : TaskRec := ⟨"running", "REQ", none, none, none⟩

def planC7 : PlanObj := ⟨[⟨"ghost", "G", []⟩, ⟨"code", "T", []⟩], [], "A"⟩

/-- Witness for C7: the plan step naming the unregistered agent "ghost"
yields an error event, the following "code" step is still delegated, and
the task completes. -/
theorem missing_agent_nonfatal_witness :
    Option.map TaskRec.status
        (orchestrateAsync envC7 1 (some taskC7) 0 "REQ" ⟨[], 0, []⟩).task
        = some "completed"
    ∧ (∃ final, (orchestrateAsync envC7 1 (some taskC7) 0 "REQ" ⟨[], 0, []⟩).outcome
          = Outcome.ok final ∧ final.success = true ∧ final.result = "S")
    ∧ (orchestrateAsync envC7 1 (some taskC7) 0 "REQ" ⟨[], 0, []⟩).events
        = [OEvent.started 0 "REQ", OEvent.planCreated 0 planC7.plan "A",
           OEvent.orchestratorError 0 "Agent ghost not found",
           OEvent.delegating 0 "code" "T", OEvent.completed 0] := by
  have h := missing_agent_nonfatal envC7 0 taskC7 0 "REQ" ⟨[], 0, []⟩ planC7 "S"
    rfl (by decide) rfl (fun _ => rfl)
  refine ⟨h.1, h.2.1, ?_⟩
  rw [h.2.2.1]
  decide

theorem orchestrate_planCalls_head (env : OrcEnv) (fuel : Nat) (task : TaskRec)
    (tid : Nat) (request : String) (st : OrcState) :
    ∃ tail, (orchestrateAsync env (fuel + 1) (some task) tid request st).planCalls
      = request :: tail := by
  by_cases hs : (env.planner request).success = true
  · by_cases hc : (parsePlan env.parse (env.planner request).result).clarifications = []
    · cases hsy : env.synth request
          (runSteps env tid request
            (parsePlan env.parse (env.planner request).result).plan
            st.taskResults st.k).results
          (parsePlan env.parse (env.planner request).result).analysis with
      | error m => exact ⟨[], by simp [orchestrateAsync, hs, hc, hsy]⟩
      | ok c => exact ⟨[], by simp [orchestrateAsync, hs, hc, hsy]⟩
    · cases hw : waitClar tid st.stream with
      | none => exact ⟨[], by simp [orchestrateAsync, hs, hc, hw]⟩
      | some p =>
        obtain ⟨ans, rest⟩ := p
        refine ⟨(orchestrateAsync env fuel
            (some { task with status := "running", clarification := none }) tid
            (request ++ "\n\nClarifications: " ++ ans)
            { st with stream := rest }).planCalls, ?_⟩
        simp [orchestrateAsync, hs, hc, hw]
  · exact ⟨[], by simp [orchestrateAsync, hs]⟩

/-- Claim C5: a planning response with a non-empty `clarifications` list
parks the task in status 'waiting_for_clarification' and publishes the
questions; the first bus event of type `task_clarification_answer`
whose `taskId` matches — `waitClar` skips every other event — brings the
status back to 'running', and the next planning call receives the
original request concatenated with the answer. -/
theorem clarification_roundtrip (env : OrcEnv) (fuel : Nat) (task : TaskRec)
    (tid : Nat) (request : String) (st : OrcState) (plan : PlanObj)
    (ans : String) (rest : List ClarEvent)
    (hsucc : (env.planner request).success = true)
    (hplan : parsePlan env.parse (env.planner request).result = plan)
    (hclar : plan.clarifications ≠ [])
    (hwait : waitClar tid st.stream = some (ans, rest)) :
    OEvent.needsClarification tid plan.clarifications
        ∈ (orchestrateAsync env (fuel + 2) (some task) tid request st).events
    ∧ (orchestrateAsync env (fuel + 2) (some task) tid request st).statusTrace.take 2
        = ["waiting_for_clarification", "running"]
    ∧ (orchestrateAsync env (fuel + 2) (some task) tid request st).planCalls.take 2
        = [request, request ++ "\n\nClarifications: " ++ ans] := by
  have hout : orchestrateAsync env (fuel + 2) (some task) tid request st
      = (let o := orchestrateAsync env (fuel + 1)
          (some { task with status := "running", clarification := none }) tid
          (request ++ "\n\nClarifications: " ++ ans) { st with stream := rest }
        ⟨o.outcome, o.task,
          OEvent.started tid request
            :: OEvent.needsClarification tid plan.clarifications :: o.events,
          o.calls, request :: o.planCalls,
          "waiting_for_clarification" :: "running" :: o.statusTrace,
          o.taskResults⟩) := by
    show orchestrateAsync env (fuel + 1 + 1) (some task) tid request st = _
    simp [orchestrateAsync, hsucc, hplan, hclar, hwait]
  rw [hout]
  obtain ⟨tail, htail⟩ := orchestrate_planCalls_head env fuel
    { task with status := "running", clarification := none } tid
    (request ++ "\n\nClarifications: " ++ ans) { st with stream := rest }
  refine ⟨by simp, by simp, ?_⟩
  simp [htail]

/-- Environment for the C5 witness: a planner that always asks one
clarification question. -/
def envC5 : OrcEnv :=
  ⟨fun _ => ⟨true, "{q}", "", "orchestrator", "Orchestrator"⟩,
   fun _ => some ⟨[], ["Which framework?"], "A"⟩, [],
   fun _ _ _ => Except.ok "S", fun k => k⟩

/-- Bus events for the C5 witness: an unrelated event and an answer for
a different task precede the matching answer; both are ignored. -/
def streamC5 : List ClarEvent :=
  [⟨"agent_started", 9, ""⟩,
   ⟨"task_clarification_answer", 7, "for another task"⟩,
   ⟨"task_clarification_answer", 9, "Use React"⟩]

/-- Witness for C5: task 9 waits on the question, ignores the event with
`taskId` 7, resumes on the matching answer, and replans with the
augmented request. -/
theorem clarification_roundtrip_witness :
    OEvent.needsClarification 9 (PlanObj.clarifications ⟨[], ["Which framework?"], "A"⟩)
        ∈ (orchestrateAsync envC5 2 (some ⟨"running", "REQ", none, none, none⟩)
            9 "REQ" ⟨[], 0, streamC5⟩).events
    ∧ (orchestrateAsync envC5 2 (some ⟨"running", "REQ", none, none, none⟩)
          9 "REQ" ⟨[], 0, streamC5⟩).statusTrace.take 2
        = ["waiting_for_clarification", "running"]
    ∧ (orchestrateAsync envC5 2 (some ⟨"running", "REQ", none, none, none⟩)
          9 "REQ" ⟨[], 0, streamC5⟩).planCalls.take 2
        = ["REQ", "REQ" ++ "\n\nClarifications: " ++ "Use React"] :=
  clarification_roundtrip envC5 0 ⟨"running", "REQ", none, none, none⟩ 9 "REQ"
    ⟨[], 0, streamC5⟩ ⟨[], ["Which framework?"], "A"⟩ "Use React" []
    rfl (by decide) (by decide) (by decide)

/-- Environment for C1: the claim's two-step plan
`[{agentId:"code", task:"T1", dependencies:[]},
  {agentId:"design", task:"T2", dependencies:["code_step"]}]`
with both agents registered; step results are `r1` and `r2`;
`Date.now()` returns 0, 1, … . -/
def envC1 (r1 r2 : String) : OrcEnv :=
  ⟨fun _ => ⟨true, "{p}", "", "orchestrator", "Orchestrator"⟩,
   fun _ => some ⟨[⟨"code", "T1", []⟩, ⟨"design", "T2", ["code_step"]⟩], [], "A"⟩,
   [("code", fun _ => ⟨true, r1, "", "code", "Code Agent"⟩),
    ("design", fun _ => ⟨true, r2, "", "design", "Design Agent"⟩)],
   fun _ _ _ => Except.ok "S", fun k => k⟩

/-- Claim C1 (code bug): delegating the claim's second step does NOT
pass the first step's recorded result.  Step 1's result is recorded
under the key "code_0" (`agentId + '_' + Date.now()`), but step 2 looks
its dependency up under the plan step id "code_step"; the key spaces
never meet, the lookup misses silently, and the design agent receives an
empty `dependencies` object instead of step 1's result "R1". -/
theorem dependency_lookup_misses :
    (orchestrateAsync (envC1 "R1" "R2") 1
        (some ⟨"running", "REQ", none, none, none⟩) 0 "REQ" ⟨[], 0, []⟩).taskResults
      = [("code_0", ⟨true, "R1", "", "code", "Code Agent"⟩),
         ("design_1", ⟨true, "R2", "", "design", "Design Agent"⟩)]
    ∧ (orchestrateAsync (envC1 "R1" "R2") 1
        (some ⟨"running", "REQ", none, none, none⟩) 0 "REQ" ⟨[], 0, []⟩).calls
      = [⟨"code", "T1", [], "REQ"⟩, ⟨"design", "T2", [], "REQ"⟩] := by
  decide
